import Mathlib

/-!
Verification development for the SP3 precise-orbit library (nav-solutions/sp3).

Shallow embedding conventions:
- `f64` values are modelled as `ℚ` (exact field arithmetic; the claims under
  study are structural, not about rounding).
- `hifitime::Epoch` is modelled two ways, each matching what the claim needs:
  as a rational number of seconds on the timeline of the file timescale
  (record-store claims), and as a civil datetime record (the epoch-marker
  parsing claim, where the fractional-second field is the point at issue).
- `BTreeMap<SP3Key, SP3Entry>` is modelled as an association list carried in
  the map iteration order (ascending key order per the derived `Ord`).
- Fallible Rust functions returning `Result<_, ParsingError>` are modelled
  with `Except ParsingError _`.
- `SV` comes from the external gnss-rs crate; it is modelled from the spec
  (a (constellation, prn) pair ordered lexicographically).
-/

namespace SP3Spec

set_option maxRecDepth 100000

/-- Vector3D from src/lib.rs: `type Vector3D = (f64, f64, f64)`. -/
abbrev Vector3D : Type := ℚ × ℚ × ℚ

/-- Constellation enum of the external gnss-rs crate, modelled from the spec
(GNSS set used by this library). -/
inductive Constellation
  | GPS | Glonass | Galileo | BeiDou | QZSS | IRNSS | SBAS | Mixed
  deriving DecidableEq, Repr

/-- Rank used for the (constellation, prn) order of the external gnss-rs
crate, modelled from the spec sentence: SV order is by (constellation, prn). -/
def Constellation.rank : Constellation → ℕ
  | .GPS => 0
  | .Glonass => 1
  | .Galileo => 2
  | .BeiDou => 3
  | .QZSS => 4
  | .IRNSS => 5
  | .SBAS => 6
  | .Mixed => 7

/-- SV (space vehicle) of the external gnss-rs crate: a (constellation, prn)
pair, modelled from the spec. -/
structure SV where
  constellation : Constellation
  prn : ℕ
  deriving DecidableEq, Repr

/-- Strict order on SV, modelled from the spec: by (constellation, prn),
lexicographically. -/
def SV.lt (a b : SV) : Prop :=
  a.constellation.rank < b.constellation.rank ∨
    (a.constellation.rank = b.constellation.rank ∧ a.prn < b.prn)

instance : DecidablePred (fun p : SV × SV => SV.lt p.1 p.2) := fun _ => by
  unfold SV.lt; infer_instance

instance (a b : SV) : Decidable (SV.lt a b) := by
  unfold SV.lt; infer_instance

/-- DataType enum from src/header/mod.rs (Position | Velocity). -/
inductive DataType
  | Position
  | Velocity
  deriving DecidableEq, Repr

/-- SP3Key from src/lib.rs. Field order matters: the Rust struct declares
`sv` first and `epoch` second, and derives `Ord`, so the derived order (and
hence the BTreeMap iteration order) compares `sv` first. The epoch is
modelled as a rational count of seconds on the file timescale timeline. -/
structure SP3Key where
  sv : SV
  epoch : ℚ
  deriving DecidableEq

/-- Derived lexicographic order of SP3Key, in Rust field declaration order:
`sv` first, then `epoch` (this is what `#[derive(PartialOrd, Ord)]` on
`struct SP3Key { sv, epoch }` produces). -/
def SP3Key.lt (a b : SP3Key) : Prop :=
  SV.lt a.sv b.sv ∨ (a.sv = b.sv ∧ a.epoch < b.epoch)

instance (a b : SP3Key) : Decidable (SP3Key.lt a b) := by
  unfold SP3Key.lt; infer_instance

/-- BTreeMap iteration visits keys in ascending derived-Ord order: key `a`
is visited before key `b` exactly when `a < b`. -/
def visitedBefore (a b : SP3Key) : Prop := SP3Key.lt a b

/-- SP3Entry from src/entry.rs. -/
structure SP3Entry where
  position_km : Vector3D
  velocity_km_s : Option Vector3D
  predicted_orbit : Bool
  maneuver : Bool
  clock_event : Bool
  predicted_clock : Bool
  clock_us : Option ℚ
  clock_drift_ns : Option ℚ
  deriving DecidableEq, Repr

namespace SP3Entry

/-- Translation of `impl Sub for SP3Entry` (src/entry.rs lines 47-84),
kept exactly as written in the source, including the middle coordinate of
the position difference being computed as `self.position_km.1 -
self.position_km.1`. -/
def sub (a rhs : SP3Entry) : SP3Entry :=
  { position_km :=
      ( a.position_km.1 - rhs.position_km.1,
        a.position_km.2.1 - a.position_km.2.1,
        a.position_km.2.2 - rhs.position_km.2.2 ),
    velocity_km_s :=
      match a.velocity_km_s with
      | some v => rhs.velocity_km_s.map (fun r => (v.1 - r.1, v.2.1 - r.2.1, v.2.2 - r.2.2))
      | none => none,
    maneuver := a.maneuver,
    clock_event := a.clock_event,
    predicted_clock := a.predicted_clock,
    predicted_orbit := a.predicted_orbit,
    clock_us :=
      match a.clock_us with
      | some c => rhs.clock_us.map (fun r => c - r)
      | none => none,
    clock_drift_ns :=
      match a.clock_drift_ns with
      | some c => rhs.clock_drift_ns.map (fun r => c - r)
      | none => none }

/-- Translation of `impl SubAssign for SP3Entry` (src/entry.rs lines
86-112): every optional field of the left side is decremented only when the
right side also carries it, and is otherwise left in place. -/
def subAssign (a rhs : SP3Entry) : SP3Entry :=
  { a with
    position_km :=
      ( a.position_km.1 - rhs.position_km.1,
        a.position_km.2.1 - rhs.position_km.2.1,
        a.position_km.2.2 - rhs.position_km.2.2 ),
    velocity_km_s :=
      match a.velocity_km_s, rhs.velocity_km_s with
      | some v, some r => some (v.1 - r.1, v.2.1 - r.2.1, v.2.2 - r.2.2)
      | some v, none => some v
      | none, _ => none,
    clock_us :=
      match a.clock_us, rhs.clock_us with
      | some c, some r => some (c - r)
      | some c, none => some c
      | none, _ => none,
    clock_drift_ns :=
      match a.clock_drift_ns, rhs.clock_drift_ns with
      | some c, some r => some (c - r)
      | some c, none => some c
      | none, _ => none }

/-- SP3Entry::from_position_km (src/entry.rs). -/
def from_position_km (position_km : Vector3D) : SP3Entry :=
  { position_km := position_km,
    clock_us := none,
    maneuver := false,
    velocity_km_s := none,
    clock_drift_ns := none,
    predicted_clock := false,
    predicted_orbit := false,
    clock_event := false }

/-- SP3Entry::from_predicted_position_km (src/entry.rs). -/
def from_predicted_position_km (position_km : Vector3D) : SP3Entry :=
  { from_position_km position_km with predicted_orbit := true }

/-- SP3Entry::with_velocity_km_s (src/entry.rs). -/
def with_velocity_km_s (s : SP3Entry) (velocity_km_s : Vector3D) : SP3Entry :=
  { s with velocity_km_s := some velocity_km_s, predicted_orbit := false }

/-- SP3Entry::with_clock_drift_ns (src/entry.rs). -/
def with_clock_drift_ns (s : SP3Entry) (drift_ns : ℚ) : SP3Entry :=
  { s with clock_drift_ns := some drift_ns }

/-- SP3Entry::with_clock_offset_us (src/entry.rs). -/
def with_clock_offset_us (s : SP3Entry) (offset_us : ℚ) : SP3Entry :=
  { s with clock_us := some offset_us, predicted_clock := false }

/-- SP3Entry::with_predicted_clock_offset_us (src/entry.rs). -/
def with_predicted_clock_offset_us (s : SP3Entry) (offset_us : ℚ) : SP3Entry :=
  { s with clock_us := some offset_us, predicted_clock := true }

end SP3Entry

/-- Header of src/header/mod.rs, restricted to the fields the claims under
study touch (data type for the dynamics claims; the remaining fields stand
in for the full header so that preservation statements are meaningful). -/
structure Header where
  data_type : DataType
  agency : String
  coord_system : String
  week : ℕ
  mjd : ℕ
  sampling_period : ℚ
  deriving DecidableEq

/-- SP3 record store from src/lib.rs: header, comments and the entry map.
The map is carried as an association list in BTreeMap iteration order.
The optional production attributes are not modelled (no claim touches
them). -/
structure SP3 where
  header : Header
  comments : List String
  data : List (SP3Key × SP3Entry)
  deriving DecidableEq

/-- Lookup of a key in the association-list view of the BTreeMap
(`data.get(&key)`). -/
def lookupKey (k : SP3Key) : List (SP3Key × SP3Entry) → Option SP3Entry
  | [] => none
  | kv :: rest => if kv.1 = k then some kv.2 else lookupKey k rest

/-- NodupKeys: the map invariant that each key appears at most once
(BTreeMap guarantees it). -/
def NodupKeys (l : List (SP3Key × SP3Entry)) : Prop :=
  l.Pairwise (fun a b => a.1 ≠ b.1)

/-- SP3::substract_mut (src/processing/substract.rs lines 38-47): retain
exactly the keys also present in rhs, replacing each retained entry by the
SubAssign difference. -/
def SP3.substract_mut (s rhs : SP3) : SP3 :=
  { s with
    data := s.data.filterMap (fun kv =>
      match lookupKey kv.1 rhs.data with
      | some v_rhs => some (kv.1, kv.2.subAssign v_rhs)
      | none => none) }

/-- SP3::substract (src/processing/substract.rs lines 31-35): clone then
substract_mut. -/
def SP3.substract (s rhs : SP3) : SP3 := s.substract_mut rhs

/-- Split::split_mut for SP3 (src/processing/split.rs lines 36-46): the
mutated self keeps keys with epoch <= t, the returned share keeps keys with
epoch > t; the header is carried over unchanged on both sides (the Header
Split impl returns a plain clone), and so are the comments. `split` clones
then calls `split_mut`, giving the (lhs, rhs) pair below. -/
def SP3.split (s : SP3) (t : ℚ) : SP3 × SP3 :=
  ( { s with data := s.data.filter (fun kv => decide (kv.1.epoch ≤ t)) },
    { s with data := s.data.filter (fun kv => decide (t < kv.1.epoch)) } )

/-! ## Text codec model

Rust slices fixed columns out of ASCII lines; lines are modelled as
`List Char` and `line[a..b]` as `slice line a b`. `str::trim` on these
lines only ever strips spaces. `u32::from_str` and `f64::from_str` are
modelled on the plain-decimal subset the SP3 grammar uses (optional sign,
digits, optional point and fraction digits); values land in `ℚ`. -/

/-- Slice of a line: the Rust `line[a..b]` on an ASCII string. -/
def slice (l : List Char) (a b : ℕ) : List Char := (l.drop a).take (b - a)

/-- Space test used by trim (the SP3 grammar only pads with spaces). -/
def isSpaceChar (c : Char) : Bool := c = ' '

/-- Model of `str::trim`. -/
def trimChars (l : List Char) : List Char :=
  ((l.dropWhile isSpaceChar).reverse.dropWhile isSpaceChar).reverse

/-- Digit test. -/
def isDigitChar (c : Char) : Bool := decide ('0' ≤ c) && decide (c ≤ '9')

/-- Numeric value of a digit list (assuming all digits). -/
def digitsToNat (l : List Char) : ℕ :=
  l.foldl (fun a c => a * 10 + (c.toNat - 48)) 0

/-- Model of `u32::from_str`: all characters must be digits, at least one. -/
def parseNatAll (l : List Char) : Option ℕ :=
  if l.isEmpty then none
  else if l.all isDigitChar then some (digitsToNat l) else none

/-- Unsigned part of the `f64::from_str` model: digits, then optionally a
point and fraction digits; at least one digit overall (so that forms such
as `999999.` and `.5` are accepted, as Rust accepts them). -/
def parseUnsignedDec (l : List Char) : Option ℚ :=
  let ip := l.takeWhile isDigitChar
  let rest := l.drop ip.length
  match rest with
  | [] => if ip.isEmpty then none else some ((digitsToNat ip : ℕ) : ℚ)
  | '.' :: fr =>
      if fr.all isDigitChar && !(ip.isEmpty && fr.isEmpty) then
        some (((digitsToNat ip : ℕ) : ℚ) + ((digitsToNat fr : ℕ) : ℚ) / 10 ^ fr.length)
      else none
  | _ => none

/-- Model of `f64::from_str` on the plain-decimal subset used by SP3. -/
def parseDecimal (l : List Char) : Option ℚ :=
  match l with
  | '-' :: rest => (parseUnsignedDec rest).map (fun q => -q)
  | '+' :: rest => parseUnsignedDec rest
  | _ => parseUnsignedDec l

/-- ParsingError variants of src/errors.rs that the modelled code paths
use. -/
inductive ParsingError
  | SV
  | Coordinates (field : List Char)
  | Clock (field : List Char)
  | EpochParsing
  | Epoch
  deriving DecidableEq

/-- Version enum from src/header/version.rs (revisions a, b, c, d). -/
inductive Version
  | A | B | C | D
  deriving DecidableEq, Repr

/-- Constellation letter of the SV text form, modelled from the spec for
the external gnss-rs `SV::from_str`. -/
def Constellation.fromLetter : Char → Option Constellation
  | 'G' => some .GPS
  | 'R' => some .Glonass
  | 'E' => some .Galileo
  | 'C' => some .BeiDou
  | 'J' => some .QZSS
  | 'I' => some .IRNSS
  | 'S' => some .SBAS
  | _ => none

/-- Model of the external gnss-rs `SV::from_str` (one constellation letter
followed by the PRN digits), modelled from the spec. -/
def SV.from_str (l : List Char) : Option SV :=
  match l with
  | c :: rest =>
      match Constellation.fromLetter c, parseNatAll rest with
      | some g, some prn => some ⟨g, prn⟩
      | _, _ => none
  | [] => none

/-- PositionEntry from src/position.rs. -/
structure PositionEntry where
  sv : SV
  x_km : ℚ
  y_km : ℚ
  z_km : ℚ
  clock_us : Option ℚ
  clock_event : Bool
  clock_prediction : Bool
  maneuver : Bool
  orbit_prediction : Bool
  deriving DecidableEq

/-- PositionEntry::parse (src/position.rs lines 26-92), translated column
by column: SV at 1..4 (2..4 digits-only under revision a), coordinates at
4..18, 18..32, 32..46, the clock column guarded by the test that
`line[45..52].trim()` differs from the literal `999999.`, and the four flag
columns at 74, 75, 78, 79. -/
def PositionEntry.parse (line : List Char) (revision : Version) :
    Except ParsingError PositionEntry := do
  let line_len := line.length

  let sv : SV ←
    match revision with
    | .A =>
        match parseNatAll (trimChars (slice line 2 4)) with
        | some prn => Except.ok (⟨.GPS, prn⟩ : SV)
        | none => Except.error .SV
    | _ =>
        match SV.from_str (trimChars (slice line 1 4)) with
        | some sv => Except.ok sv
        | none => Except.error .SV

  let x : ℚ ←
    match parseDecimal (trimChars (slice line 4 18)) with
    | some q => Except.ok q
    | none => Except.error (.Coordinates (slice line 4 18))

  let y : ℚ ←
    match parseDecimal (trimChars (slice line 18 32)) with
    | some q => Except.ok q
    | none => Except.error (.Coordinates (slice line 18 32))

  let z : ℚ ←
    match parseDecimal (trimChars (slice line 32 46)) with
    | some q => Except.ok q
    | none => Except.error (.Coordinates (slice line 32 46))

  let clock_us : Option ℚ ←
    if 51 < line_len ∧ ¬ (trimChars (slice line 45 52) = ("999999.").toList) then
      match parseDecimal (trimChars (slice line 46 60)) with
      | some q => Except.ok (some q)
      | none => Except.error (.Clock (slice line 46 60))
    else
      Except.ok none

  let clock_event := 74 < line_len ∧ slice line 74 75 = ['E']
  let clock_prediction := 75 < line_len ∧ slice line 75 76 = ['P']
  let maneuver := 78 < line_len ∧ slice line 78 79 = ['M']
  let orbit_prediction := 79 < line_len ∧ slice line 79 80 = ['P']

  Except.ok
    { sv := sv,
      clock_us := clock_us,
      clock_event := decide clock_event,
      clock_prediction := decide clock_prediction,
      orbit_prediction := decide orbit_prediction,
      maneuver := decide maneuver,
      x_km := x,
      y_km := y,
      z_km := z }

/-- VelocityEntry from src/velocity.rs. -/
structure VelocityEntry where
  sv : SV
  velocity : Vector3D
  clock : Option ℚ
  deriving DecidableEq

/-- VelocityEntry::parse (src/velocity.rs lines 20-64): each of the three
14-character fields is multiplied by 10⁻⁴ here; the clock field is stored
raw, guarded by the same `line[45..52].trim() != "999999."` test. -/
def VelocityEntry.parse (line : List Char) (revision : Version) :
    Except ParsingError VelocityEntry := do
  let sv : SV ←
    match revision with
    | .A =>
        match parseNatAll (trimChars (slice line 2 4)) with
        | some prn => Except.ok (⟨.GPS, prn⟩ : SV)
        | none => Except.error .SV
    | _ =>
        match SV.from_str (trimChars (slice line 1 4)) with
        | some sv => Except.ok sv
        | none => Except.error .SV

  let x_km : ℚ ←
    match parseDecimal (trimChars (slice line 4 18)) with
    | some q => Except.ok (q * (1 / 10000))
    | none => Except.error (.Coordinates (slice line 4 18))

  let y_km : ℚ ←
    match parseDecimal (trimChars (slice line 18 32)) with
    | some q => Except.ok (q * (1 / 10000))
    | none => Except.error (.Coordinates (slice line 18 32))

  let z_km : ℚ ←
    match parseDecimal (trimChars (slice line 32 46)) with
    | some q => Except.ok (q * (1 / 10000))
    | none => Except.error (.Coordinates (slice line 32 46))

  let clock : Option ℚ ←
    if ¬ (trimChars (slice line 45 52) = ("999999.").toList) then
      match parseDecimal (trimChars (slice line 46 60)) with
      | some q => Except.ok (some q)
      | none => Except.error (.Clock (slice line 46 60))
    else
      Except.ok none

  Except.ok { sv := sv, velocity := (x_km, y_km, z_km), clock := clock }

/-- VelocityEntry::to_parts (src/velocity.rs lines 66-70). -/
def VelocityEntry.to_parts (e : VelocityEntry) : SV × Vector3D × Option ℚ :=
  (e.sv, e.velocity, e.clock)

/-- TimeScale set exposed by the header codec. -/
inductive TimeScale
  | GPST | GST | QZSST | UTC | TAI
  deriving DecidableEq, Repr

/-- Civil datetime view of a hifitime Epoch, used for the epoch-marker
claim: an instant named by its timescale, calendar fields and sub-second
fraction. For a fixed timescale, two valid datetimes name the same instant
exactly when all fields agree, so this record is a faithful view of the
instant for the comparison the claim makes. -/
structure Epoch where
  ts : TimeScale
  year : ℕ
  month : ℕ
  day : ℕ
  hour : ℕ
  minute : ℕ
  second : ℕ
  subsec : ℚ
  deriving DecidableEq

/-- parse_epoch (src/parsing.rs lines 42-56): six whole fields are parsed,
the fractional-second field at columns 20..27 is parsed into `_ss_fract`
and then dropped, and the Epoch is rebuilt (through `Epoch::from_str`) from
the whole-second fields alone, in the file timescale. -/
def parse_epoch (content : List Char) (timescale : TimeScale) :
    Except ParsingError Epoch :=
  match parseNatAll (trimChars (slice content 0 4)) with
  | none => Except.error .EpochParsing
  | some y =>
  match parseNatAll (trimChars (slice content 4 7)) with
  | none => Except.error .EpochParsing
  | some m =>
  match parseNatAll (trimChars (slice content 7 10)) with
  | none => Except.error .EpochParsing
  | some d =>
  match parseNatAll (trimChars (slice content 10 13)) with
  | none => Except.error .EpochParsing
  | some hh =>
  match parseNatAll (trimChars (slice content 13 16)) with
  | none => Except.error .EpochParsing
  | some mm =>
  match parseNatAll (trimChars (slice content 16 19)) with
  | none => Except.error .EpochParsing
  | some ss =>
  match parseDecimal (trimChars (slice content 20 27)) with
  | none => Except.error .EpochParsing
  | some _ss_fract =>
      Except.ok
        { ts := timescale, year := y, month := m, day := d,
          hour := hh, minute := mm, second := ss, subsec := 0 }

/-! ## Reader driver body branches (src/parsing.rs, SP3::from_reader) -/

/-- BTreeMap in-place update at an existing key (`get_mut`). -/
def updateKey (k : SP3Key) (v : SP3Entry) :
    List (SP3Key × SP3Entry) → List (SP3Key × SP3Entry) :=
  List.map (fun kv => if kv.1 = k then (k, v) else kv)

/-- BTreeMap ordered insertion. -/
def insertKey (k : SP3Key) (v : SP3Entry) :
    List (SP3Key × SP3Entry) → List (SP3Key × SP3Entry)
  | [] => [(k, v)]
  | kv :: rest =>
      if SP3Key.lt k kv.1 then (k, v) :: kv :: rest
      else if kv.1 = k then (k, v) :: rest
      else kv :: insertKey k v rest

/-- The position-line branch of SP3::from_reader (src/parsing.rs lines
164-222): short lines are skipped; the parsed entry is inserted only when
all three coordinates are nonzero; on an existing key the position and
flags are overwritten; otherwise a fresh entry is built from position,
optional clock and flags. The `PositionEntry::from_str` shim the caller
uses is not under src/ and is modelled from its only parser,
`PositionEntry::parse`, with the file revision. The `vehicles` bookkeeping
list does not touch the entry map and is not modelled. -/
def positionBranch (data : List (SP3Key × SP3Entry)) (epoch : ℚ)
    (line : List Char) (revision : Version) :
    Except ParsingError (List (SP3Key × SP3Entry)) :=
  if line.length < 60 then Except.ok data
  else
    match PositionEntry.parse line revision with
    | Except.error e => Except.error e
    | Except.ok entry =>
    if entry.x_km ≠ 0 ∧ entry.y_km ≠ 0 ∧ entry.z_km ≠ 0 then
      let key : SP3Key := ⟨entry.sv, epoch⟩
      match lookupKey key data with
      | some e =>
          Except.ok (updateKey key
            { e with
              position_km := (entry.x_km, entry.y_km, entry.z_km),
              maneuver := entry.maneuver,
              predicted_orbit := entry.orbit_prediction } data)
      | none =>
        match entry.clock_us with
        | some clk_us =>
            let value :=
              if entry.orbit_prediction then
                SP3Entry.from_predicted_position_km (entry.x_km, entry.y_km, entry.z_km)
              else
                SP3Entry.from_position_km (entry.x_km, entry.y_km, entry.z_km)
            let value :=
              if entry.clock_prediction then
                value.with_predicted_clock_offset_us clk_us
              else
                value.with_clock_offset_us clk_us
            let value := { value with maneuver := entry.maneuver, clock_event := entry.clock_event }
            Except.ok (insertKey key value data)
        | none =>
            let value :=
              if entry.orbit_prediction then
                SP3Entry.from_predicted_position_km (entry.x_km, entry.y_km, entry.z_km)
              else
                SP3Entry.from_position_km (entry.x_km, entry.y_km, entry.z_km)
            let value := { value with maneuver := entry.maneuver, clock_event := entry.clock_event }
            Except.ok (insertKey key value data)
    else Except.ok data

/-- The velocity-line branch of SP3::from_reader (src/parsing.rs lines
224-272): short lines are skipped; the parsed parts are rescaled by a
further 10⁻⁴ per component, with the x component built from the y part as
the source writes it; when all parts are nonzero the entry at (sv, epoch)
is updated (or seeded at a zero position), attaching the clock drift as the
parsed clock times 0.1 when present. The `VelocityEntry::from_str` shim the
caller uses is not under src/ and is modelled from its only parser,
`VelocityEntry::parse`, with the file revision. -/
def velocityBranch (data : List (SP3Key × SP3Entry)) (epoch : ℚ)
    (line : List Char) (revision : Version) :
    Except ParsingError (List (SP3Key × SP3Entry)) :=
  if line.length < 60 then Except.ok data
  else
    match VelocityEntry.parse line revision with
    | Except.error e => Except.error e
    | Except.ok entry =>
    let (sv, (vel_x_dm_s, vel_y_dm_s, vel_z_dm_s), clk_sub_ns) := entry.to_parts
    let vel_x_km_s := vel_y_dm_s * (1 / 10000)
    let vel_y_km_s := vel_y_dm_s * (1 / 10000)
    let vel_z_km_s := vel_z_dm_s * (1 / 10000)
    if vel_x_dm_s ≠ 0 ∧ vel_y_dm_s ≠ 0 ∧ vel_z_dm_s ≠ 0 then
      let key : SP3Key := ⟨sv, epoch⟩
      match lookupKey key data with
      | some e =>
          let e := e.with_velocity_km_s (vel_x_km_s, vel_y_km_s, vel_z_km_s)
          match clk_sub_ns with
          | some clk => Except.ok (updateKey key (e.with_clock_drift_ns (clk * (1 / 10))) data)
          | none => Except.ok (updateKey key e data)
      | none =>
        match clk_sub_ns with
        | some clk =>
            Except.ok (insertKey key
              (((SP3Entry.from_position_km (0, 0, 0)).with_velocity_km_s
                  (vel_x_km_s, vel_y_km_s, vel_z_km_s)).with_clock_drift_ns (clk * (1 / 10))) data)
        | none =>
            Except.ok (insertKey key
              ((SP3Entry.from_position_km (0, 0, 0)).with_velocity_km_s
                  (vel_x_km_s, vel_y_km_s, vel_z_km_s)) data)
    else Except.ok data

/-! ## Dynamics engine (src/dynamics.rs) -/

/-- HashMap of per-SV previous states, as a function (`past_states`). -/
def mUpdate (m : SV → Option (ℚ × Vector3D)) (sv : SV) (x : ℚ × Vector3D) :
    SV → Option (ℚ × Vector3D) :=
  fun s => if s = sv then some x else m s

/-- One body iteration of SP3::resolve_velocities_mut (src/dynamics.rs
lines 89-103): entries lacking velocity and having a previous same-SV state
receive the first-difference velocity; the Bool reports whether the entry
was filled (the `success` flag contribution). -/
def rvStep (m : SV → Option (ℚ × Vector3D)) (k : SP3Key) (v : SP3Entry) :
    SP3Entry × Bool :=
  match v.velocity_km_s with
  | none =>
    match m k.sv with
    | some (past_t, past_state) =>
        let dt := k.epoch - past_t
        let vel : Vector3D :=
          ( (v.position_km.1 - past_state.1) / dt,
            (v.position_km.2.1 - past_state.2.1) / dt,
            (v.position_km.2.2 - past_state.2.2) / dt )
        ({ v with velocity_km_s := some vel }, true)
    | none => (v, false)
  | some _ => (v, false)

/-- Walk of SP3::resolve_velocities_mut over the entry map in iteration
order: after each entry the per-SV state map records (epoch, position) of
the possibly-modified entry, exactly as `past_states.insert(k.sv,
(k.epoch, v.position_km))` does after the conditional fill. -/
def rvGo : List (SP3Key × SP3Entry) → (SV → Option (ℚ × Vector3D)) →
    List (SP3Key × SP3Entry) × Bool
  | [], _ => ([], false)
  | (k, v) :: rest, m =>
      let step := rvStep m k v
      let next := rvGo rest (mUpdate m k.sv (k.epoch, step.1.position_km))
      ((k, step.1) :: next.1, step.2 || next.2)

/-- SP3::resolve_velocities (src/dynamics.rs lines 85-118): run the walk
from an empty state map; on any success upgrade the header data type to
Velocity. -/
def SP3.resolve_velocities (s : SP3) : SP3 :=
  let run := rvGo s.data (fun _ => none)
  { s with
    data := run.1,
    header := if run.2 then { s.header with data_type := .Velocity } else s.header }

/-! ## Interpolator (src/lib.rs) -/

/-- lagrange_interpolation (src/lib.rs lines 118-148): nothing when fewer
than order+1 samples are supplied, otherwise the Lagrange basis sum over
the first order+1 window samples. -/
def lagrange_interpolation (order : ℕ) (t : ℚ) (x : List (ℚ × Vector3D)) :
    Option Vector3D :=
  if x.length < order + 1 then none
  else
    let dflt : ℚ × Vector3D := (0, (0, 0, 0))
    let polynomials := (List.range (order + 1)).foldl (fun acc i =>
      let p_i := x.getD i dflt
      let l_i := (List.range (order + 1)).foldl (fun l j =>
        if j ≠ i then
          let p_j := x.getD j dflt
          l * (t - p_j.1) / (p_i.1 - p_j.1)
        else l) 1
      ( acc.1 + p_i.2.1 * l_i,
        acc.2.1 + p_i.2.2.1 * l_i,
        acc.2.2 + p_i.2.2.2 * l_i )) ((0 : ℚ), (0 : ℚ), (0 : ℚ))
    some polynomials

/-- Items produced by satellites_stable_position_km_iter (src/lib.rs lines
347-360): (epoch, sv, predicted, position) for every non-maneuver entry, in
map iteration order. -/
def SP3.stablePositionItems (s : SP3) : List (ℚ × SV × Bool × Vector3D) :=
  s.data.filterMap (fun kv =>
    if kv.2.maneuver then none
    else some (kv.1.epoch, kv.1.sv, kv.2.predicted_orbit, kv.2.position_km))

/-- Threshold `smallest_dt = 2.0 * Unit::Nanosecond` of
satellite_position_interpolate, on the seconds timeline. -/
def smallestDt : ℚ := 2 / 1000000000

/-- Loop state of satellite_position_interpolate (src/lib.rs lines
573-579). -/
structure InterpState where
  pastT : ℚ
  tx : Option ℚ
  txPerfect : Bool
  w0 : ℕ
  w1 : ℕ
  window : List (ℚ × Vector3D)
  deriving DecidableEq

/-- Window maintenance of the interpolation loop: push, then drop the
front sample when the length exceeds target_len. -/
def windowPush (targetLen : ℕ) (w : List (ℚ × Vector3D)) (x : ℚ × Vector3D) :
    List (ℚ × Vector3D) :=
  let w' := w ++ [x]
  if targetLen < w'.length then w'.tail else w'

/-- The iterator loop of satellite_position_interpolate (src/lib.rs lines
581-616), one constructor case per control path: other-SV items only
advance past_t and the enumeration index; matching items maintain the
window; while t_x is unset, the first item with past_t < t and t_i >= t
records (w0, t_x, perfect-match); once t_x is set, reaching index
w0 + target_len_2 - 1 records w1 and breaks. -/
def interpGo (sv : SV) (t : ℚ) (targetLen targetLen2 : ℕ) :
    List (ℚ × SV × Bool × Vector3D) → ℕ → InterpState → InterpState
  | [], _, st => st
  | (t_i, sv_i, _, pos_i) :: rest, index_i, st =>
      if sv_i ≠ sv then
        interpGo sv t targetLen targetLen2 rest (index_i + 1) { st with pastT := t_i }
      else
        let window' := windowPush targetLen st.window (t_i, pos_i)
        match st.tx with
        | none =>
            if st.pastT < t ∧ t ≤ t_i then
              interpGo sv t targetLen targetLen2 rest (index_i + 1)
                { pastT := t_i, tx := some t_i,
                  txPerfect := if |t_i - t| < smallestDt then true else st.txPerfect,
                  w0 := index_i, w1 := st.w1, window := window' }
            else
              interpGo sv t targetLen targetLen2 rest (index_i + 1)
                { st with pastT := t_i, window := window' }
        | some _ =>
            if index_i = st.w0 + targetLen2 - 1 then
              { st with w1 := targetLen2, window := window' }
            else
              interpGo sv t targetLen targetLen2 rest (index_i + 1)
                { st with pastT := t_i, window := window' }

/-- SP3::satellite_position_interpolate (src/lib.rs lines 554-637). The
Rust function panics on even order (a programmer error); the panic path is
modelled as an immediate nothing and no claim exercises it. The loop runs
from index 0 with Epoch::default() as past_t (the timeline origin) and an
empty window; afterwards the guards reject a missing t_x, a too-early
central point, and an uncentered window, and otherwise hand the window to
the supplied function pointer. -/
def SP3.satellite_position_interpolate (s : SP3) (sv : SV) (t : ℚ) (order : ℕ)
    (interp : ℕ → ℚ → List (ℚ × Vector3D) → Option Vector3D) : Option Vector3D :=
  if order % 2 = 0 then none
  else
    let target_len := order + 1
    let target_len_2 := target_len / 2
    let target_len_2_1 := target_len_2 - 1
    let st := interpGo sv t target_len target_len_2 s.stablePositionItems 0
        { pastT := 0, tx := none, txPerfect := false, w0 := 0, w1 := 0, window := [] }
    match st.tx with
    | none => none
    | some _ =>
        if st.w0 < target_len_2 then none
        else if st.txPerfect then
          if st.w1 < target_len_2_1 then none else interp order t st.window
        else if st.w1 < target_len_2 then none
        else interp order t st.window

/-- SP3::satellite_position_lagrangian_interpolation (src/lib.rs lines
647-654). -/
def SP3.satellite_position_lagrangian_interpolation (s : SP3) (sv : SV)
    (t : ℚ) (order : ℕ) : Option Vector3D :=
  s.satellite_position_interpolate sv t order lagrange_interpolation

/-- Epoch of the last item of a segment, with a default for the empty
segment: the value past_t holds after the loop has walked the segment. -/
def lastEpoch (l : List (ℚ × SV × Bool × Vector3D)) (d : ℚ) : ℚ :=
  l.foldl (fun _ x => x.1) d

/-- Window contents after the loop has pushed a whole segment of matching
items. -/
def pushAll (targetLen : ℕ) (w : List (ℚ × Vector3D))
    (l : List (ℚ × SV × Bool × Vector3D)) : List (ℚ × Vector3D) :=
  l.foldl (fun w x => windowPush targetLen w (x.1, x.2.2.2)) w

/-! ## Shared lemmas -/

/-- Looking a key up in a map with no duplicate keys finds the entry the
map associates with it. -/
theorem lookupKey_self {l : List (SP3Key × SP3Entry)} (h : NodupKeys l) :
    ∀ kv ∈ l, lookupKey kv.1 l = some kv.2 := by
  induction l with
  | nil => intro kv hm; cases hm
  | cons a rest ih =>
      intro kv hm
      rw [NodupKeys, List.pairwise_cons] at h
      rcases List.mem_cons.mp hm with rfl | hm'
      · simp [lookupKey]
      · have hne : a.1 ≠ kv.1 := h.1 kv hm'
        simp only [lookupKey, if_neg hne]
        exact ih h.2 kv hm'

/-- A filterMap that answers some everywhere is a map. -/
theorem filterMap_eq_map_of {α β : Type _} {f : α → Option β} {g : α → β} :
    ∀ {l : List α}, (∀ a ∈ l, f a = some (g a)) → l.filterMap f = l.map g := by
  intro l
  induction l with
  | nil => intro _; rfl
  | cons a rest ih =>
      intro h
      rw [List.filterMap_cons, h a (List.mem_cons_self a rest), List.map_cons,
        ih (fun x hx => h x (List.mem_cons_of_mem a hx))]

/-! ## Claim theorems -/

/-- C1: the claim states that a velocity line parsed by the reader stores
velocity_km_s as the three 14-character fields each times 10⁻⁴ component by
component, and the clock drift as the parsed field times 10⁻¹. Evaluating
the reader velocity branch at a concrete V-line whose fields are 1000,
2000, 3000 (dm/s) and 12.345678 (0.1 ns): the stored velocity is
(2000·10⁻⁸, 2000·10⁻⁸, 3000·10⁻⁸) — the x component is built from the y
field and every component carries a second 10⁻⁴ factor — instead of the
claimed (1000·10⁻⁴, 2000·10⁻⁴, 3000·10⁻⁴); the drift half of the claim
matches the code (1.2345678 ns). -/
theorem C1_reader_velocity_storage :
    Except.map
        (fun st => (lookupKey ⟨⟨.GPS, 1⟩, 900⟩ st).map
          (fun e => (e.velocity_km_s, e.clock_drift_ns)))
        (velocityBranch [] 900
          (("VG01   1000.000000   2000.000000   3000.000000     12.345678").toList)
          Version.C)
      = Except.ok (some
          (some ((1 : ℚ) / 50000, (1 : ℚ) / 50000, (3 : ℚ) / 100000),
           some ((12345678 : ℚ) / 10000000)))
    ∧ ((1 : ℚ) / 50000, (1 : ℚ) / 50000, (3 : ℚ) / 100000)
        ≠ ((1000 : ℚ) / 10000, (2000 : ℚ) / 10000, (3000 : ℚ) / 10000) := by
  refine ⟨by with_unfolding_all rfl, by norm_num⟩

/-- C2: the claim states that a data line whose clock column holds the
sentinel 999999.999999 stores no clock. On the very line the repository
tests with (clock column right-justified, so the sentinel occupies columns
48-60), the parser test `line[45..52].trim() == "999999."` reads the last
z digit plus " 999999" and misses, and the sentinel is parsed and stored
as clock_us = Some(999999.999999). -/
theorem C2_sentinel_clock_stored :
    Except.map (fun e => e.clock_us)
        (PositionEntry.parse
          (("PG23      0.000000      0.000000      0.000000 999999.999999                  M").toList)
          Version.C)
      = Except.ok (some ((999999999999 : ℚ) / 1000000))
    ∧ trimChars (slice
        (("PG23      0.000000      0.000000      0.000000 999999.999999                  M").toList)
        46 60)
      = ("999999.999999").toList := by
  refine ⟨by with_unfolding_all rfl, by decide⟩

/-- C3 counterexample: the claim states that map iteration is ordered
primarily by epoch. The derived key order compares the sv field first, so
the key (G02, epoch 0) — strictly earlier in epoch than (G01, epoch 1) —
is nevertheless visited after it. -/
theorem C3_epoch_order_counterexample :
    (⟨⟨.GPS, 2⟩, 0⟩ : SP3Key).epoch < (⟨⟨.GPS, 1⟩, 1⟩ : SP3Key).epoch
    ∧ ¬ visitedBefore ⟨⟨.GPS, 2⟩, 0⟩ ⟨⟨.GPS, 1⟩, 1⟩
    ∧ visitedBefore ⟨⟨.GPS, 1⟩, 1⟩ ⟨⟨.GPS, 2⟩, 0⟩ := by
  refine ⟨by norm_num, ?_, Or.inl (by decide)⟩
  rintro (h | ⟨h, _⟩) <;> exact absurd h (by decide)

/-- C3 amended: iteration over the entry map is ordered primarily by SV
(by (constellation, prn)) and only within one SV by epoch: a key with a
smaller SV is visited first whatever the epochs, and between keys of the
same SV the earlier epoch is visited first. -/
theorem C3_sv_major_iteration :
    ∀ k1 k2 : SP3Key,
      (SV.lt k1.sv k2.sv → visitedBefore k1 k2)
      ∧ (k1.sv = k2.sv → (visitedBefore k1 k2 ↔ k1.epoch < k2.epoch)) := by
  intro k1 k2
  constructor
  · intro h
    exact Or.inl h
  · intro hsv
    constructor
    · rintro (hlt | ⟨_, he⟩)
      · rw [hsv] at hlt
        rcases hlt with h1 | ⟨_, h2⟩
        · exact absurd h1 (lt_irrefl _)
        · exact absurd h2 (lt_irrefl _)
      · exact he
    · intro he
      exact Or.inr ⟨hsv, he⟩

/-- C3 witness: the amended order at concrete keys. -/
theorem C3_sv_major_iteration_witness :
    visitedBefore ⟨⟨.GPS, 1⟩, 5⟩ ⟨⟨.GPS, 2⟩, 0⟩
    ∧ visitedBefore ⟨⟨.GPS, 1⟩, 0⟩ ⟨⟨.GPS, 1⟩, 1⟩ :=
  ⟨(C3_sv_major_iteration ⟨⟨.GPS, 1⟩, 5⟩ ⟨⟨.GPS, 2⟩, 0⟩).1 (by decide),
   (C3_sv_major_iteration ⟨⟨.GPS, 1⟩, 0⟩ ⟨⟨.GPS, 1⟩, 1⟩).2 rfl |>.mpr (by norm_num)⟩

/-- C4: the claim states that both the binary subtraction and the
subtract-assign variant produce component-wise position differences and
define optional fields only when both sides do. Evaluating both operators
at concrete entries: the binary operator computes the middle position
coordinate from the left operand twice (0 instead of 2 - 5 = -3), and the
subtract-assign variant keeps the left velocity and clock drift although
the right side lacks them. -/
theorem C4_entry_subtraction_eval :
    (SP3Entry.sub
        ⟨(1, 2, 3), some (10, 20, 30), false, false, false, false, some 5, some 7⟩
        ⟨(4, 5, 6), none, false, false, false, false, some 1, none⟩).position_km
      = ((-3 : ℚ), 0, -3)
    ∧ ((0 : ℚ) ≠ (2 : ℚ) - 5)
    ∧ (SP3Entry.subAssign
        ⟨(1, 2, 3), some (10, 20, 30), false, false, false, false, some 5, some 7⟩
        ⟨(4, 5, 6), none, false, false, false, false, some 1, none⟩).position_km
      = ((-3 : ℚ), -3, -3)
    ∧ (SP3Entry.subAssign
        ⟨(1, 2, 3), some (10, 20, 30), false, false, false, false, some 5, some 7⟩
        ⟨(4, 5, 6), none, false, false, false, false, some 1, none⟩).velocity_km_s
      = some ((10 : ℚ), 20, 30)
    ∧ (SP3Entry.subAssign
        ⟨(1, 2, 3), some (10, 20, 30), false, false, false, false, some 5, some 7⟩
        ⟨(4, 5, 6), none, false, false, false, false, some 1, none⟩).clock_drift_ns
      = some (7 : ℚ) := by
  refine ⟨by with_unfolding_all rfl, by norm_num, by with_unfolding_all rfl,
    by with_unfolding_all rfl, by with_unfolding_all rfl⟩

/-- C5: subtracting a store from itself keeps exactly its keys, and each
resulting entry has position exactly (0,0,0), clock_us exactly 0 wherever
the store defined a clock, and no velocity or clock drift wherever the
store lacked them. -/
theorem C5_substract_self_null (s : SP3) (h : NodupKeys s.data) :
    (s.substract s).data = s.data.map (fun kv => (kv.1, kv.2.subAssign kv.2))
    ∧ (s.substract s).data.map Prod.fst = s.data.map Prod.fst
    ∧ ∀ kv ∈ s.data,
        (kv.2.subAssign kv.2).position_km = ((0 : ℚ), (0 : ℚ), (0 : ℚ))
        ∧ (kv.2.clock_us.isSome → (kv.2.subAssign kv.2).clock_us = some 0)
        ∧ (kv.2.velocity_km_s = none → (kv.2.subAssign kv.2).velocity_km_s = none)
        ∧ (kv.2.clock_drift_ns = none → (kv.2.subAssign kv.2).clock_drift_ns = none) := by
  have hdata : (s.substract s).data
      = s.data.map (fun kv => (kv.1, kv.2.subAssign kv.2)) := by
    apply filterMap_eq_map_of
    intro kv hm
    rw [lookupKey_self h kv hm]
  refine ⟨hdata, by rw [hdata]; simp, ?_⟩
  intro kv hm
  refine ⟨?_, ?_, ?_, ?_⟩
  · simp [SP3Entry.subAssign]
  · intro hc
    rcases Option.isSome_iff_exists.mp hc with ⟨c, hcv⟩
    simp [SP3Entry.subAssign, hcv]
  · intro hv
    simp [SP3Entry.subAssign, hv]
  · intro hd
    rcases hcu : kv.2.clock_us with _ | c <;>
      rcases hvl : kv.2.velocity_km_s with _ | v <;>
        simp [SP3Entry.subAssign, hd, hcu, hvl]

/-- C5 witness: the self-difference of a concrete two-entry store. -/
theorem C5_substract_self_null_witness :
    (SP3.substract
        ⟨⟨.Position, "IGS", "IGS14", 2276, 60176, 900⟩, [],
          [(⟨⟨.GPS, 1⟩, 0⟩, SP3Entry.from_position_km (1, 2, 3)),
           (⟨⟨.GPS, 2⟩, 0⟩, (SP3Entry.from_position_km (4, 5, 6)).with_clock_offset_us 9)]⟩
        ⟨⟨.Position, "IGS", "IGS14", 2276, 60176, 900⟩, [],
          [(⟨⟨.GPS, 1⟩, 0⟩, SP3Entry.from_position_km (1, 2, 3)),
           (⟨⟨.GPS, 2⟩, 0⟩, (SP3Entry.from_position_km (4, 5, 6)).with_clock_offset_us 9)]⟩).data.map
        Prod.fst
      = [⟨⟨.GPS, 1⟩, 0⟩, ⟨⟨.GPS, 2⟩, 0⟩] :=
  ((C5_substract_self_null
      ⟨⟨.Position, "IGS", "IGS14", 2276, 60176, 900⟩, [],
        [(⟨⟨.GPS, 1⟩, 0⟩, SP3Entry.from_position_km (1, 2, 3)),
         (⟨⟨.GPS, 2⟩, 0⟩, (SP3Entry.from_position_km (4, 5, 6)).with_clock_offset_us 9)]⟩
      (by rw [NodupKeys]; decide)).2.1).trans rfl

/-- C6: splitting a store at epoch t partitions it: the left share holds
exactly the pairs with epoch at most t, the right share exactly those with
epoch beyond t, every pair of the store lands in one of the two shares,
and both shares keep the full header and the comments. -/
theorem C6_split_partition (s : SP3) (t : ℚ) :
    (∀ kv, kv ∈ (s.split t).1.data ↔ kv ∈ s.data ∧ kv.1.epoch ≤ t)
    ∧ (∀ kv, kv ∈ (s.split t).2.data ↔ kv ∈ s.data ∧ t < kv.1.epoch)
    ∧ (∀ kv ∈ s.data, kv ∈ (s.split t).1.data ∨ kv ∈ (s.split t).2.data)
    ∧ (s.split t).1.header = s.header ∧ (s.split t).2.header = s.header
    ∧ (s.split t).1.comments = s.comments ∧ (s.split t).2.comments = s.comments := by
  refine ⟨?_, ?_, ?_, rfl, rfl, rfl, rfl⟩
  · intro kv; simp [SP3.split, List.mem_filter]
  · intro kv; simp [SP3.split, List.mem_filter]
  · intro kv hm
    by_cases hle : kv.1.epoch ≤ t
    · exact Or.inl (by simp [SP3.split, List.mem_filter, hm, hle])
    · exact Or.inr (by simp [SP3.split, List.mem_filter, hm, lt_of_not_le hle])

/-- C6 witness: the partition at a concrete store and epoch. -/
theorem C6_split_partition_witness :
    (⟨⟨.GPS, 1⟩, 0⟩, SP3Entry.from_position_km (1, 2, 3))
        ∈ ((SP3.split
            ⟨⟨.Position, "IGS", "IGS14", 2276, 60176, 900⟩, [],
              [(⟨⟨.GPS, 1⟩, 0⟩, SP3Entry.from_position_km (1, 2, 3)),
               (⟨⟨.GPS, 1⟩, 900⟩, SP3Entry.from_position_km (4, 5, 6))]⟩ 0).1).data
    ∨ (⟨⟨.GPS, 1⟩, 0⟩, SP3Entry.from_position_km (1, 2, 3))
        ∈ ((SP3.split
            ⟨⟨.Position, "IGS", "IGS14", 2276, 60176, 900⟩, [],
              [(⟨⟨.GPS, 1⟩, 0⟩, SP3Entry.from_position_km (1, 2, 3)),
               (⟨⟨.GPS, 1⟩, 900⟩, SP3Entry.from_position_km (4, 5, 6))]⟩ 0).2).data :=
  (C6_split_partition
      ⟨⟨.Position, "IGS", "IGS14", 2276, 60176, 900⟩, [],
        [(⟨⟨.GPS, 1⟩, 0⟩, SP3Entry.from_position_km (1, 2, 3)),
         (⟨⟨.GPS, 1⟩, 900⟩, SP3Entry.from_position_km (4, 5, 6))]⟩ 0).2.2.1
    (⟨⟨.GPS, 1⟩, 0⟩, SP3Entry.from_position_km (1, 2, 3)) (by simp)

/-- C7 counterexample: the claim states that a position line whose three
coordinate fields are all zero still creates the (SV, Epoch) entry from
its clock and flag columns. On a concrete all-zero line carrying a clock
of 63.035497 µs and the maneuver flag, the reader branch leaves the store
empty: no entry at all is created. -/
theorem C7_zero_position_entry_dropped :
    positionBranch [] 900
        (("PG23      0.000000      0.000000      0.000000     63.035497                  M").toList)
        Version.C
      = Except.ok []
    ∧ Except.map (fun e => (e.x_km, e.y_km, e.z_km, e.clock_us, e.maneuver))
        (PositionEntry.parse
          (("PG23      0.000000      0.000000      0.000000     63.035497                  M").toList)
          Version.C)
      = Except.ok ((0 : ℚ), (0 : ℚ), (0 : ℚ), some ((63035497 : ℚ) / 1000000), true) := by
  constructor <;> with_unfolding_all rfl

/-- C7 amended: a position line any of whose coordinate fields is zero is
dropped by the reader: the entry map is left unchanged and no entry is
created from the clock or flag columns. -/
theorem C7_zero_position_line_skipped
    (data : List (SP3Key × SP3Entry)) (epoch : ℚ) (line : List Char)
    (revision : Version) (entry : PositionEntry)
    (hlen : ¬ line.length < 60)
    (hp : PositionEntry.parse line revision = Except.ok entry)
    (hz : entry.x_km = 0 ∨ entry.y_km = 0 ∨ entry.z_km = 0) :
    positionBranch data epoch line revision = Except.ok data := by
  have hcond : ¬ (entry.x_km ≠ 0 ∧ entry.y_km ≠ 0 ∧ entry.z_km ≠ 0) := by
    rcases hz with h0 | h0 | h0 <;> intro hc
    · exact hc.1 h0
    · exact hc.2.1 h0
    · exact hc.2.2 h0
  unfold positionBranch
  rw [if_neg hlen, hp]
  simp only [if_neg hcond]

/-- C7 witness: the amended behaviour at the concrete all-zero line. -/
theorem C7_zero_position_line_skipped_witness :
    positionBranch [] 900
        (("PG23      0.000000      0.000000      0.000000     63.035497                  M").toList)
        Version.C
      = Except.ok [] :=
  C7_zero_position_line_skipped [] 900
    (("PG23      0.000000      0.000000      0.000000     63.035497                  M").toList)
    Version.C
    ⟨⟨.GPS, 23⟩, 0, 0, 0, some ((63035497 : ℚ) / 1000000), false, false, true, false⟩
    (by decide) (by with_unfolding_all rfl) (Or.inl rfl)

/-- C8 counterexample: the claim states that the current epoch equals the
full marker datetime including its fractional-second field. Parsing the
marker 2020 12 24 21 43 54.12345678 yields the instant at whole second 54
with zero sub-second fraction, which differs from the instant carrying the
written fraction .12345678. -/
theorem C8_fraction_dropped_eval :
    parse_epoch (("2020 12 24 21 43 54.12345678").toList) TimeScale.GPST
      = Except.ok ⟨.GPST, 2020, 12, 24, 21, 43, 54, 0⟩
    ∧ (⟨.GPST, 2020, 12, 24, 21, 43, 54, 0⟩ : Epoch)
      ≠ ⟨.GPST, 2020, 12, 24, 21, 43, 54, (12345678 : ℚ) / 100000000⟩ := by
  refine ⟨by with_unfolding_all rfl, fun h => ?_⟩
  have hs := congrArg Epoch.subsec h
  norm_num at hs

/-- C8 amended: the current epoch assigned by an epoch marker is the
marker datetime truncated to whole seconds, reinterpreted in the file
timescale: the fractional-second field is parsed for validity and then
discarded, so the stored sub-second fraction is zero while the six whole
fields are exactly those written on the marker. -/
theorem C8_epoch_whole_seconds
    (content : List Char) (ts : TimeScale) (e : Epoch)
    (h : parse_epoch content ts = Except.ok e) :
    e.subsec = 0 ∧ e.ts = ts
    ∧ parseNatAll (trimChars (slice content 0 4)) = some e.year
    ∧ parseNatAll (trimChars (slice content 4 7)) = some e.month
    ∧ parseNatAll (trimChars (slice content 7 10)) = some e.day
    ∧ parseNatAll (trimChars (slice content 10 13)) = some e.hour
    ∧ parseNatAll (trimChars (slice content 13 16)) = some e.minute
    ∧ parseNatAll (trimChars (slice content 16 19)) = some e.second := by
  unfold parse_epoch at h
  rcases h1 : parseNatAll (trimChars (slice content 0 4)) with _ | y <;> rw [h1] at h
  · cases h
  rcases h2 : parseNatAll (trimChars (slice content 4 7)) with _ | m <;> rw [h2] at h
  · cases h
  rcases h3 : parseNatAll (trimChars (slice content 7 10)) with _ | d <;> rw [h3] at h
  · cases h
  rcases h4 : parseNatAll (trimChars (slice content 10 13)) with _ | hh <;> rw [h4] at h
  · cases h
  rcases h5 : parseNatAll (trimChars (slice content 13 16)) with _ | mm <;> rw [h5] at h
  · cases h
  rcases h6 : parseNatAll (trimChars (slice content 16 19)) with _ | ss <;> rw [h6] at h
  · cases h
  rcases h7 : parseDecimal (trimChars (slice content 20 27)) with _ | f <;> rw [h7] at h
  · cases h
  cases h
  exact ⟨rfl, rfl, rfl, rfl, rfl, rfl, rfl, rfl⟩

/-- C8 witness: the amended statement at the concrete marker. -/
theorem C8_epoch_whole_seconds_witness :
    (⟨.GPST, 2020, 12, 24, 21, 43, 54, 0⟩ : Epoch).subsec = 0
    ∧ (⟨.GPST, 2020, 12, 24, 21, 43, 54, 0⟩ : Epoch).ts = TimeScale.GPST
    ∧ parseNatAll (trimChars (slice (("2020 12 24 21 43 54.12345678").toList) 0 4))
        = some (⟨.GPST, 2020, 12, 24, 21, 43, 54, 0⟩ : Epoch).year
    ∧ parseNatAll (trimChars (slice (("2020 12 24 21 43 54.12345678").toList) 4 7))
        = some (⟨.GPST, 2020, 12, 24, 21, 43, 54, 0⟩ : Epoch).month
    ∧ parseNatAll (trimChars (slice (("2020 12 24 21 43 54.12345678").toList) 7 10))
        = some (⟨.GPST, 2020, 12, 24, 21, 43, 54, 0⟩ : Epoch).day
    ∧ parseNatAll (trimChars (slice (("2020 12 24 21 43 54.12345678").toList) 10 13))
        = some (⟨.GPST, 2020, 12, 24, 21, 43, 54, 0⟩ : Epoch).hour
    ∧ parseNatAll (trimChars (slice (("2020 12 24 21 43 54.12345678").toList) 13 16))
        = some (⟨.GPST, 2020, 12, 24, 21, 43, 54, 0⟩ : Epoch).minute
    ∧ parseNatAll (trimChars (slice (("2020 12 24 21 43 54.12345678").toList) 16 19))
        = some (⟨.GPST, 2020, 12, 24, 21, 43, 54, 0⟩ : Epoch).second :=
  C8_epoch_whole_seconds (("2020 12 24 21 43 54.12345678").toList) TimeScale.GPST
    ⟨.GPST, 2020, 12, 24, 21, 43, 54, 0⟩ (by with_unfolding_all rfl)

/-- Applying the resolve_velocities body step to an entry it has already
produced changes nothing and reports no success, and the step never moves
the position. -/
theorem rvStep_fix (m : SV → Option (ℚ × Vector3D)) (k : SP3Key) (v : SP3Entry) :
    rvStep m k (rvStep m k v).1 = ((rvStep m k v).1, false)
    ∧ (rvStep m k v).1.position_km = v.position_km := by
  rcases hv : v.velocity_km_s with _ | vel
  · rcases hm : m k.sv with _ | p
    · simp [rvStep, hv, hm]
    · obtain ⟨pt, pp⟩ := p
      simp [rvStep, hv, hm]
  · simp [rvStep, hv]

/-- A second resolve_velocities walk over the output of a first walk, from
the same initial state map, changes no entry and reports no success. -/
theorem rvGo_fix :
    ∀ (l : List (SP3Key × SP3Entry)) (m : SV → Option (ℚ × Vector3D)),
      rvGo (rvGo l m).1 m = ((rvGo l m).1, false) := by
  intro l
  induction l with
  | nil => intro m; rfl
  | cons kv rest ih =>
      intro m
      obtain ⟨k, v⟩ := kv
      obtain ⟨hfix, _⟩ := rvStep_fix m k v
      simp only [rvGo, hfix, Bool.false_or]
      rw [ih (mUpdate m k.sv (k.epoch, (rvStep m k v).1.position_km))]

/-- C10: resolve_velocities is idempotent: running it a second time yields
the same store — the entry map is unchanged (an entry filled by the first
run, or already carrying a velocity, is never rewritten; a satellite head
entry stays unresolved both times) and the header data type is unchanged,
because the second run reports no success. -/
theorem C10_resolve_velocities_idempotent (s : SP3) :
    s.resolve_velocities.resolve_velocities = s.resolve_velocities := by
  cases s with
  | mk header comments data =>
      simp only [SP3.resolve_velocities]
      rw [rvGo_fix data (fun _ => none)]
      simp

/-! ## Interpolation-loop lemmas -/

/-- Pushing one sample grows the window by one, capped at target_len. -/
theorem windowPush_length (TL : ℕ) (w : List (ℚ × Vector3D)) (x : ℚ × Vector3D)
    (h : w.length ≤ TL) :
    (windowPush TL w x).length = min (w.length + 1) TL := by
  unfold windowPush
  by_cases hc : TL < (w ++ [x]).length
  · rw [if_pos hc]
    simp only [List.length_append, List.length_cons, List.length_nil] at hc ⊢
    rw [List.length_tail]
    simp only [List.length_append, List.length_cons, List.length_nil]
    omega
  · rw [if_neg hc]
    simp only [List.length_append, List.length_cons, List.length_nil] at hc ⊢
    omega

/-- Pushing a whole segment leaves a window of the capped total length. -/
theorem pushAll_length (TL : ℕ) :
    ∀ (l : List (ℚ × SV × Bool × Vector3D)) (w : List (ℚ × Vector3D)),
      w.length ≤ TL → (pushAll TL w l).length = min (w.length + l.length) TL := by
  intro l
  induction l with
  | nil =>
      intro w h
      simp only [pushAll, List.foldl_nil, List.length_nil, Nat.add_zero]
      omega
  | cons x l' ih =>
      intro w h
      have h1 : (windowPush TL w (x.1, x.2.2.2)).length = min (w.length + 1) TL :=
        windowPush_length TL w _ h
      have h2 : (windowPush TL w (x.1, x.2.2.2)).length ≤ TL := by omega
      show (pushAll TL (windowPush TL w (x.1, x.2.2.2)) l').length = _
      rw [ih _ h2, h1]
      simp only [List.length_cons]
      omega

/-- Walking a segment ending in a sample leaves that sample epoch as the
last seen epoch. -/
theorem lastEpoch_append_single (l : List (ℚ × SV × Bool × Vector3D))
    (x : ℚ × SV × Bool × Vector3D) (d : ℚ) :
    lastEpoch (l ++ [x]) d = x.1 := by
  simp [lastEpoch, List.foldl_append]

/-- The Lagrange interpolator answers exactly when the window reaches
order+1 samples. -/
theorem lagrange_interpolation_isSome (order : ℕ) (t : ℚ)
    (x : List (ℚ × Vector3D)) :
    (lagrange_interpolation order t x).isSome ↔ order + 1 ≤ x.length := by
  unfold lagrange_interpolation
  by_cases hc : x.length < order + 1
  · rw [if_pos hc]
    simp
    omega
  · rw [if_neg hc]
    simp
    omega

/-- Splitting a mapped range at an inner index. -/
theorem range_map_split {α : Type _} (f : ℕ → α) (k M : ℕ) (h : k < M) :
    (List.range M).map f
      = (List.range k).map f
        ++ f k :: ((List.range (M - k - 1)).map (fun i => f (k + 1 + i))) := by
  have hM : M = k + (M - k - 1 + 1) := by omega
  rw [hM, List.range_add, List.map_append, List.map_map]
  congr 1
  rw [List.range_succ_eq_map, List.map_cons, List.map_map]
  simp only [Function.comp, Nat.add_zero]
  congr 1
  have hr : k + (M - k - 1 + 1) - k - 1 = M - k - 1 := by omega
  rw [hr]
  apply List.map_congr_left
  intro i _
  simp only [Function.comp]
  congr 1
  omega

/-- Walking a segment of other-satellite items only advances the
enumeration index and the last seen epoch. -/
theorem interpGo_skip (sv : SV) (t : ℚ) (TL H : ℕ) :
    ∀ (l rest : List (ℚ × SV × Bool × Vector3D)) (idx : ℕ) (st : InterpState),
      (∀ x ∈ l, x.2.1 ≠ sv) →
      interpGo sv t TL H (l ++ rest) idx st
        = interpGo sv t TL H rest (idx + l.length)
            { st with pastT := lastEpoch l st.pastT } := by
  intro l
  induction l with
  | nil =>
      intro rest idx st _
      simp [lastEpoch]
  | cons x l' ih =>
      intro rest idx st hsv
      obtain ⟨t_i, sv_i, b_i, pos_i⟩ := x
      obtain ⟨pastT, tx, perf, w0, w1, win⟩ := st
      have hx : sv_i ≠ sv := hsv _ (List.mem_cons_self _ _)
      rw [List.cons_append]
      show interpGo sv t TL H (_ :: _) idx _ = _
      rw [interpGo, if_pos hx]
      rw [ih _ _ _ (fun y hy => hsv y (List.mem_cons_of_mem _ hy))]
      have hidx : idx + 1 + l'.length = idx + (l'.length + 1) := by omega
      rw [hidx]
      rfl

/-- Walking matching items that all lie strictly before the query epoch
pushes them through the window without finding t_x. -/
theorem interpGo_below (sv : SV) (t : ℚ) (TL H : ℕ) :
    ∀ (l rest : List (ℚ × SV × Bool × Vector3D)) (idx : ℕ) (st : InterpState),
      st.tx = none → (∀ x ∈ l, x.2.1 = sv) → (∀ x ∈ l, ¬ t ≤ x.1) →
      interpGo sv t TL H (l ++ rest) idx st
        = interpGo sv t TL H rest (idx + l.length)
            { st with pastT := lastEpoch l st.pastT,
                      window := pushAll TL st.window l } := by
  intro l
  induction l with
  | nil =>
      intro rest idx st _ _ _
      simp [lastEpoch, pushAll]
  | cons x l' ih =>
      intro rest idx st htx hsv hlt
      obtain ⟨t_i, sv_i, b_i, pos_i⟩ := x
      obtain ⟨pastT, tx, perf, w0, w1, win⟩ := st
      cases htx
      have hx : sv_i = sv := hsv _ (List.mem_cons_self _ _)
      have hnt : ¬ t ≤ t_i := hlt _ (List.mem_cons_self _ _)
      rw [List.cons_append]
      show interpGo sv t TL H (_ :: _) idx _ = _
      rw [interpGo, if_neg (fun hcon => hcon hx)]
      simp only
      rw [if_neg (fun hc => hnt hc.2)]
      rw [ih _ _ _ rfl (fun y hy => hsv y (List.mem_cons_of_mem _ hy))
        (fun y hy => hlt y (List.mem_cons_of_mem _ hy))]
      have hidx : idx + 1 + l'.length = idx + (l'.length + 1) := by omega
      rw [hidx]
      rfl

/-- When the last seen epoch is already at or past the query epoch, a
segment of matching items at or past the query epoch never finds t_x. -/
theorem interpGo_nofind (sv : SV) (t : ℚ) (TL H : ℕ) :
    ∀ (l rest : List (ℚ × SV × Bool × Vector3D)) (idx : ℕ) (st : InterpState),
      st.tx = none → ¬ (st.pastT < t) →
      (∀ x ∈ l, x.2.1 = sv) → (∀ x ∈ l, t ≤ x.1) →
      interpGo sv t TL H (l ++ rest) idx st
        = interpGo sv t TL H rest (idx + l.length)
            { st with pastT := lastEpoch l st.pastT,
                      window := pushAll TL st.window l } := by
  intro l
  induction l with
  | nil =>
      intro rest idx st _ _ _ _
      simp [lastEpoch, pushAll]
  | cons x l' ih =>
      intro rest idx st htx hpast hsv hge
      obtain ⟨t_i, sv_i, b_i, pos_i⟩ := x
      obtain ⟨pastT, tx, perf, w0, w1, win⟩ := st
      cases htx
      have hx : sv_i = sv := hsv _ (List.mem_cons_self _ _)
      have hti : t ≤ t_i := hge _ (List.mem_cons_self _ _)
      rw [List.cons_append]
      show interpGo sv t TL H (_ :: _) idx _ = _
      rw [interpGo, if_neg (fun hcon => hcon hx)]
      simp only
      rw [if_neg (fun hc => hpast hc.1)]
      rw [ih _ _ _ rfl (not_lt.mpr hti)
        (fun y hy => hsv y (List.mem_cons_of_mem _ hy))
        (fun y hy => hge y (List.mem_cons_of_mem _ hy))]
      have hidx : idx + 1 + l'.length = idx + (l'.length + 1) := by omega
      rw [hidx]
      rfl

/-- After t_x has been found, matching items are pushed through the window
until the enumeration index reaches w0 + target_len_2 - 1. -/
theorem interpGo_after (sv : SV) (t : ℚ) (TL H : ℕ) :
    ∀ (l rest : List (ℚ × SV × Bool × Vector3D)) (idx : ℕ) (st : InterpState)
      (tx0 : ℚ),
      st.tx = some tx0 → (∀ x ∈ l, x.2.1 = sv) →
      (∀ i < l.length, idx + i ≠ st.w0 + H - 1) →
      interpGo sv t TL H (l ++ rest) idx st
        = interpGo sv t TL H rest (idx + l.length)
            { st with pastT := lastEpoch l st.pastT,
                      window := pushAll TL st.window l } := by
  intro l
  induction l with
  | nil =>
      intro rest idx st tx0 _ _ _
      simp [lastEpoch, pushAll]
  | cons x l' ih =>
      intro rest idx st tx0 htx hsv hbrk
      obtain ⟨t_i, sv_i, b_i, pos_i⟩ := x
      obtain ⟨pastT, tx, perf, w0, w1, win⟩ := st
      cases htx
      have hx : sv_i = sv := hsv _ (List.mem_cons_self _ _)
      have hne : idx ≠ w0 + H - 1 := by
        have := hbrk 0 (by simp)
        simpa using this
      rw [List.cons_append]
      show interpGo sv t TL H (_ :: _) idx _ = _
      rw [interpGo, if_neg (fun hcon => hcon hx)]
      simp only
      rw [if_neg hne]
      rw [ih _ _ _ tx0 rfl (fun y hy => hsv y (List.mem_cons_of_mem _ hy))
        (fun i hi => by
          have hb : idx + (i + 1) ≠ w0 + H - 1 :=
            hbrk (i + 1) (by simp only [List.length_cons]; omega)
          show idx + 1 + i ≠ w0 + H - 1
          omega)]
      have hidx : idx + 1 + l'.length = idx + (l'.length + 1) := by omega
      rw [hidx]
      rfl

/-- The step that finds t_x: first matching item at or past the query
epoch while the last seen epoch was strictly before it. -/
theorem interpGo_find (sv : SV) (t : ℚ) (TL H : ℕ)
    (t_i : ℚ) (b_i : Bool) (pos_i : Vector3D)
    (rest : List (ℚ × SV × Bool × Vector3D)) (idx : ℕ) (st : InterpState)
    (htx : st.tx = none) (h1 : st.pastT < t) (h2 : t ≤ t_i) :
    interpGo sv t TL H ((t_i, sv, b_i, pos_i) :: rest) idx st
      = interpGo sv t TL H rest (idx + 1)
          ⟨t_i, some t_i,
            (if |t_i - t| < smallestDt then true else st.txPerfect),
            idx, st.w1, windowPush TL st.window (t_i, pos_i)⟩ := by
  obtain ⟨pastT, tx, perf, w0, w1, win⟩ := st
  cases htx
  rw [interpGo, if_neg (fun hcon => hcon rfl)]
  simp only
  rw [if_pos ⟨h1, h2⟩]

/-- The break step: once t_x is set, the matching item at enumeration
index w0 + target_len_2 - 1 sets w1 and stops the loop. -/
theorem interpGo_break (sv : SV) (t : ℚ) (TL H : ℕ)
    (t_i : ℚ) (b_i : Bool) (pos_i : Vector3D)
    (rest : List (ℚ × SV × Bool × Vector3D)) (idx : ℕ) (st : InterpState)
    (tx0 : ℚ) (htx : st.tx = some tx0) (hidx : idx = st.w0 + H - 1) :
    interpGo sv t TL H ((t_i, sv, b_i, pos_i) :: rest) idx st
      = { st with w1 := H, window := windowPush TL st.window (t_i, pos_i) } := by
  obtain ⟨pastT, tx, perf, w0, w1, win⟩ := st
  cases htx
  rw [interpGo, if_neg (fun hcon => hcon rfl)]
  simp only
  rw [if_pos hidx]

/-- A trailing segment of other-satellite items only advances the last
seen epoch; the loop then ends. -/
theorem interpGo_tail_skip (sv : SV) (t : ℚ) (TL H : ℕ)
    (l : List (ℚ × SV × Bool × Vector3D)) (idx : ℕ) (st : InterpState)
    (h : ∀ x ∈ l, x.2.1 ≠ sv) :
    interpGo sv t TL H l idx st = { st with pastT := lastEpoch l st.pastT } := by
  conv_lhs => rw [← List.append_nil l]
  rw [interpGo_skip sv t TL H l [] idx st h]
  rfl

/-- Last seen epoch after walking a mapped range. -/
theorem lastEpoch_map_range (g : ℕ → (ℚ × SV × Bool × Vector3D)) (k : ℕ)
    (hk : 0 < k) (d : ℚ) :
    lastEpoch ((List.range k).map g) d = (g (k - 1)).1 := by
  obtain ⟨j, rfl⟩ : ∃ j, k = j + 1 := ⟨k - 1, by omega⟩
  rw [List.range_succ, List.map_append, List.map_singleton, lastEpoch_append_single]
  simp

/-- Characterization of the centered Lagrangian interpolation on a
uniformly sampled satellite: with 2H the window size (H = (order+1)/2),
querying the k-th sample epoch answers exactly when H <= k and
k + H <= M. Proved for any odd order of at least 3, any uniform period,
any surrounding blocks of other satellites, and any sample positions. -/
theorem interp_uniform_char
    (order : ℕ) (hodd : order % 2 = 1) (h3 : 3 ≤ order)
    (sv : SV) (t0 τ : ℚ) (hτ : 0 < τ) (M : ℕ) (b : ℕ → Bool) (pos : ℕ → Vector3D)
    (pre post : List (ℚ × SV × Bool × Vector3D))
    (hpre : ∀ x ∈ pre, x.2.1 ≠ sv) (hpost : ∀ x ∈ post, x.2.1 ≠ sv)
    (s : SP3)
    (hitems : s.stablePositionItems
        = pre ++ ((List.range M).map
            (fun j : ℕ => (t0 + (j : ℚ) * τ, sv, b j, pos j)) ++ post))
    (k : ℕ) (hk : k < M) :
    (s.satellite_position_lagrangian_interpolation sv (t0 + (k : ℚ) * τ) order).isSome = true
      ↔ ((order + 1) / 2 ≤ k ∧ k + (order + 1) / 2 ≤ M) := by
  have hH2 : 2 ≤ (order + 1) / 2 := by omega
  have hTL2 : order + 1 = 2 * ((order + 1) / 2) := by omega
  have hodd' : ¬ order % 2 = 0 := by omega
  have hmono : ∀ (i j : ℕ), i < j → t0 + (i : ℚ) * τ < t0 + (j : ℚ) * τ := by
    intro i j hij
    have hc : (i : ℚ) < (j : ℚ) := by exact_mod_cast hij
    nlinarith
  have hsvA : ∀ x ∈ (List.range k).map
      (fun j : ℕ => ((t0 + (j : ℚ) * τ, sv, b j, pos j) : ℚ × SV × Bool × Vector3D)),
      x.2.1 = sv := by
    intro x hx
    rcases List.mem_map.mp hx with ⟨j, _, rfl⟩
    rfl
  have hltA : ∀ x ∈ (List.range k).map
      (fun j : ℕ => ((t0 + (j : ℚ) * τ, sv, b j, pos j) : ℚ × SV × Bool × Vector3D)),
      ¬ t0 + (k : ℚ) * τ ≤ x.1 := by
    intro x hx
    rcases List.mem_map.mp hx with ⟨j, hj, rfl⟩
    exact not_le.mpr (hmono j k (List.mem_range.mp hj))
  have hsplit := range_map_split
    (fun j : ℕ => ((t0 + (j : ℚ) * τ, sv, b j, pos j) : ℚ × SV × Bool × Vector3D)) k M hk
  unfold SP3.satellite_position_lagrangian_interpolation
    SP3.satellite_position_interpolate
  rw [if_neg hodd', hitems]
  simp only []
  rw [interpGo_skip sv (t0 + (k : ℚ) * τ) (order + 1) ((order + 1) / 2) pre _ _ _ hpre]
  rw [hsplit]
  simp only [List.append_assoc, List.cons_append]
  rw [interpGo_below sv (t0 + (k : ℚ) * τ) (order + 1) ((order + 1) / 2) _ _ _ _ rfl hsvA hltA]
  simp only [List.length_map, List.length_range, Nat.zero_add]
  by_cases hfind : lastEpoch
      ((List.range k).map (fun j : ℕ =>
        ((t0 + (j : ℚ) * τ, sv, b j, pos j) : ℚ × SV × Bool × Vector3D)))
      (lastEpoch pre 0) < t0 + (k : ℚ) * τ
  · rw [interpGo_find sv (t0 + (k : ℚ) * τ) (order + 1) ((order + 1) / 2)
        (t0 + (k : ℚ) * τ) (b k) (pos k)
        ((List.range (M - k - 1)).map
          (fun i : ℕ => ((t0 + ((k + 1 + i : ℕ) : ℚ) * τ, sv, b (k + 1 + i), pos (k + 1 + i)) :
            ℚ × SV × Bool × Vector3D)) ++ post)
        (pre.length + k)
        ⟨lastEpoch ((List.range k).map (fun j : ℕ =>
            ((t0 + (j : ℚ) * τ, sv, b j, pos j) : ℚ × SV × Bool × Vector3D))) (lastEpoch pre 0),
         none, false, 0, 0,
         pushAll (order + 1) [] ((List.range k).map (fun j : ℕ =>
            ((t0 + (j : ℚ) * τ, sv, b j, pos j) : ℚ × SV × Bool × Vector3D)))⟩
        rfl hfind le_rfl]
    have habs : (if |(t0 + (k : ℚ) * τ) - (t0 + (k : ℚ) * τ)| < smallestDt then true
        else (false : Bool)) = true := by
      rw [sub_self, abs_zero]
      exact if_pos (by norm_num [smallestDt])
    simp only [habs]
    by_cases hM1 : k + (order + 1) / 2 ≤ M
    · have hsplit2 := range_map_split
        (fun i : ℕ => ((t0 + ((k + 1 + i : ℕ) : ℚ) * τ, sv, b (k + 1 + i), pos (k + 1 + i)) :
          ℚ × SV × Bool × Vector3D))
        ((order + 1) / 2 - 2) (M - k - 1) (by omega)
      rw [hsplit2]
      simp only [List.append_assoc, List.cons_append]
      rw [interpGo_after sv (t0 + (k : ℚ) * τ) (order + 1) ((order + 1) / 2)
          ((List.range ((order + 1) / 2 - 2)).map
            (fun i : ℕ => ((t0 + ((k + 1 + i : ℕ) : ℚ) * τ, sv, b (k + 1 + i), pos (k + 1 + i)) :
              ℚ × SV × Bool × Vector3D)))
          _ (pre.length + k + 1)
          ⟨t0 + (k : ℚ) * τ, some (t0 + (k : ℚ) * τ), true, pre.length + k, 0,
            windowPush (order + 1)
              (pushAll (order + 1) [] ((List.range k).map (fun j : ℕ =>
                ((t0 + (j : ℚ) * τ, sv, b j, pos j) : ℚ × SV × Bool × Vector3D))))
              (t0 + (k : ℚ) * τ, pos k)⟩
          (t0 + (k : ℚ) * τ) rfl
          (by
            intro x hx
            rcases List.mem_map.mp hx with ⟨i, _, rfl⟩
            rfl)
          (by
            intro i hi
            simp only [List.length_map, List.length_range] at hi
            show pre.length + k + 1 + i ≠ pre.length + k + (order + 1) / 2 - 1
            omega)]
      simp only [List.length_map, List.length_range]
      rw [interpGo_break sv (t0 + (k : ℚ) * τ) (order + 1) ((order + 1) / 2)
          (t0 + ((k + 1 + ((order + 1) / 2 - 2) : ℕ) : ℚ) * τ)
          (b (k + 1 + ((order + 1) / 2 - 2))) (pos (k + 1 + ((order + 1) / 2 - 2)))
          _ (pre.length + k + 1 + ((order + 1) / 2 - 2))
          ⟨lastEpoch
              ((List.range ((order + 1) / 2 - 2)).map
                (fun i : ℕ => ((t0 + ((k + 1 + i : ℕ) : ℚ) * τ, sv, b (k + 1 + i), pos (k + 1 + i)) :
                  ℚ × SV × Bool × Vector3D)))
              (t0 + (k : ℚ) * τ),
            some (t0 + (k : ℚ) * τ), true, pre.length + k, 0,
            pushAll (order + 1)
              (windowPush (order + 1)
                (pushAll (order + 1) [] ((List.range k).map (fun j : ℕ =>
                  ((t0 + (j : ℚ) * τ, sv, b j, pos j) : ℚ × SV × Bool × Vector3D))))
                (t0 + (k : ℚ) * τ, pos k))
              ((List.range ((order + 1) / 2 - 2)).map
                (fun i : ℕ => ((t0 + ((k + 1 + i : ℕ) : ℚ) * τ, sv, b (k + 1 + i), pos (k + 1 + i)) :
                  ℚ × SV × Bool × Vector3D)))⟩
          (t0 + (k : ℚ) * τ) rfl
          (by
            show pre.length + k + 1 + ((order + 1) / 2 - 2) = pre.length + k + (order + 1) / 2 - 1
            omega)]
      by_cases hw0 : pre.length + k < (order + 1) / 2
      · simp only [if_pos hw0, Option.isSome_none]
        constructor
        · intro hcon
          exact absurd hcon (by simp)
        · rintro ⟨h1, _⟩
          exact absurd h1 (by omega)
      · have c1 : (pushAll (order + 1) [] ((List.range k).map (fun j : ℕ => ((t0 + (j : ℚ) * τ, sv, b j, pos j) : ℚ × SV × Bool × Vector3D)))).length = min k (order + 1) := by
          have h := pushAll_length (order + 1) ((List.range k).map (fun j : ℕ => ((t0 + (j : ℚ) * τ, sv, b j, pos j) : ℚ × SV × Bool × Vector3D))) [] (by simp)
          simpa using h
        have c2 : (windowPush (order + 1) (pushAll (order + 1) [] ((List.range k).map (fun j : ℕ => ((t0 + (j : ℚ) * τ, sv, b j, pos j) : ℚ × SV × Bool × Vector3D)))) (t0 + (k : ℚ) * τ, pos k)).length = min (k + 1) (order + 1) := by
          rw [windowPush_length _ _ _ (by omega), c1]
          omega
        have c3 : (pushAll (order + 1) (windowPush (order + 1) (pushAll (order + 1) [] ((List.range k).map (fun j : ℕ => ((t0 + (j : ℚ) * τ, sv, b j, pos j) : ℚ × SV × Bool × Vector3D)))) (t0 + (k : ℚ) * τ, pos k)) ((List.range ((order + 1) / 2 - 2)).map (fun i : ℕ => ((t0 + ((k + 1 + i : ℕ) : ℚ) * τ, sv, b (k + 1 + i), pos (k + 1 + i)) : ℚ × SV × Bool × Vector3D)))).length = min (k + 1 + ((order + 1) / 2 - 2)) (order + 1) := by
          have h := pushAll_length (order + 1) ((List.range ((order + 1) / 2 - 2)).map (fun i : ℕ => ((t0 + ((k + 1 + i : ℕ) : ℚ) * τ, sv, b (k + 1 + i), pos (k + 1 + i)) : ℚ × SV × Bool × Vector3D))) (windowPush (order + 1) (pushAll (order + 1) [] ((List.range k).map (fun j : ℕ => ((t0 + (j : ℚ) * τ, sv, b j, pos j) : ℚ × SV × Bool × Vector3D)))) (t0 + (k : ℚ) * τ, pos k)) (by omega)
          rw [h, c2]
          simp only [List.length_map, List.length_range]
          omega
        have c4 : (windowPush (order + 1) (pushAll (order + 1) (windowPush (order + 1) (pushAll (order + 1) [] ((List.range k).map (fun j : ℕ => ((t0 + (j : ℚ) * τ, sv, b j, pos j) : ℚ × SV × Bool × Vector3D)))) (t0 + (k : ℚ) * τ, pos k)) ((List.range ((order + 1) / 2 - 2)).map (fun i : ℕ => ((t0 + ((k + 1 + i : ℕ) : ℚ) * τ, sv, b (k + 1 + i), pos (k + 1 + i)) : ℚ × SV × Bool × Vector3D)))) (t0 + ((k + 1 + ((order + 1) / 2 - 2) : ℕ) : ℚ) * τ, pos (k + 1 + ((order + 1) / 2 - 2)))).length = min (k + (order + 1) / 2) (order + 1) := by
          rw [windowPush_length _ _ _ (by omega), c3]
          omega
        simp only [if_neg hw0, eq_self_iff_true, if_true,
          if_neg (show ¬ ((order + 1) / 2 < (order + 1) / 2 - 1) from by omega)]
        rw [lagrange_interpolation_isSome, c4]
        omega
    · rw [interpGo_after sv (t0 + (k : ℚ) * τ) (order + 1) ((order + 1) / 2)
          ((List.range (M - k - 1)).map (fun i : ℕ => ((t0 + ((k + 1 + i : ℕ) : ℚ) * τ, sv, b (k + 1 + i), pos (k + 1 + i)) : ℚ × SV × Bool × Vector3D)))
          post (pre.length + k + 1)
          ⟨t0 + (k : ℚ) * τ, some (t0 + (k : ℚ) * τ), true, pre.length + k, 0, (windowPush (order + 1) (pushAll (order + 1) [] ((List.range k).map (fun j : ℕ => ((t0 + (j : ℚ) * τ, sv, b j, pos j) : ℚ × SV × Bool × Vector3D)))) (t0 + (k : ℚ) * τ, pos k))⟩
          (t0 + (k : ℚ) * τ) rfl
          (by
            intro x hx
            rcases List.mem_map.mp hx with ⟨i, _, rfl⟩
            rfl)
          (by
            intro i hi
            simp only [List.length_map, List.length_range] at hi
            show pre.length + k + 1 + i ≠ pre.length + k + (order + 1) / 2 - 1
            omega)]
      rw [interpGo_tail_skip sv (t0 + (k : ℚ) * τ) (order + 1) ((order + 1) / 2) post _ _ hpost]
      by_cases hw0 : pre.length + k < (order + 1) / 2
      · simp only [if_pos hw0, Option.isSome_none]
        constructor
        · intro hcon
          exact absurd hcon (by simp)
        · rintro ⟨_, h2⟩
          exact absurd h2 (by omega)
      · simp only [if_neg hw0, eq_self_iff_true, if_true,
          if_pos (show (0 : ℕ) < (order + 1) / 2 - 1 from by omega), Option.isSome_none]
        constructor
        · intro hcon
          exact absurd hcon (by simp)
        · rintro ⟨_, h2⟩
          exact absurd h2 (by omega)
  · rw [← List.cons_append]
    rw [interpGo_nofind sv (t0 + (k : ℚ) * τ) (order + 1) ((order + 1) / 2)
        ((t0 + (k : ℚ) * τ, sv, b k, pos k) :: ((List.range (M - k - 1)).map (fun i : ℕ => ((t0 + ((k + 1 + i : ℕ) : ℚ) * τ, sv, b (k + 1 + i), pos (k + 1 + i)) : ℚ × SV × Bool × Vector3D))))
        post (pre.length + k)
        ⟨lastEpoch ((List.range k).map (fun j : ℕ => ((t0 + (j : ℚ) * τ, sv, b j, pos j) : ℚ × SV × Bool × Vector3D))) (lastEpoch pre 0), none, false, 0, 0, (pushAll (order + 1) [] ((List.range k).map (fun j : ℕ => ((t0 + (j : ℚ) * τ, sv, b j, pos j) : ℚ × SV × Bool × Vector3D))))⟩
        rfl hfind
        (by
          intro x hx
          rcases List.mem_cons.mp hx with rfl | hx'
          · rfl
          · rcases List.mem_map.mp hx' with ⟨i, _, rfl⟩
            rfl)
        (by
          intro x hx
          rcases List.mem_cons.mp hx with rfl | hx'
          · exact le_refl _
          · rcases List.mem_map.mp hx' with ⟨i, _, rfl⟩
            exact le_of_lt (hmono k (k + 1 + i) (by omega)))]
    rw [interpGo_tail_skip sv (t0 + (k : ℚ) * τ) (order + 1) ((order + 1) / 2) post _ _ hpost]
    simp only [Option.isSome_none]
    constructor
    · intro hcon
      exact absurd hcon (by simp)
    · rintro ⟨h1, _⟩
      exfalso
      apply hfind
      rw [lastEpoch_map_range _ k (by omega)]
      exact hmono (k - 1) k (by omega)

/-- C9 counterexample: the claim states that for a uniformly sampled
store, order 9 and a query epoch not among the first 9/2 = 4 nor the last
4 samples, the interpolation returns a value. On a ten-sample store the
fifth sample (index 4, epoch 3600) is neither among the first four nor
among the last four samples, yet the interpolation returns nothing: the
loop demands (order+1)/2 = 5 samples before-or-at the query epoch. -/
theorem C9_inner_sample_returns_none :
    SP3.satellite_position_lagrangian_interpolation
        ⟨⟨.Position, "IGS", "IGS14", 2276, 60176, 900⟩, [],
          (List.range 10).map (fun j : ℕ =>
            (⟨⟨.GPS, 1⟩, (0 : ℚ) + (j : ℚ) * 900⟩,
              SP3Entry.from_position_km ((j : ℚ), 0, 0)))⟩
        ⟨.GPS, 1⟩ ((0 : ℚ) + (4 : ℕ) * 900) 9
      = none
    ∧ (9 : ℕ) / 2 ≤ 4 ∧ 4 + (9 : ℕ) / 2 < 10 := by
  refine ⟨by with_unfolding_all rfl, by norm_num, by norm_num⟩

/-- C9 amended: for a store with uniform sampling of period tau, a
satellite it contains, and an order N in {9, 11, 17}, the position
interpolation at that satellite's k-th sample epoch returns a value
exactly when the sample lies neither among the satellite's first
(N+1)/2 samples nor among its last N/2 samples (that is, when
(N+1)/2 <= k and k + (N+1)/2 <= M for M samples); outside that range it
returns nothing rather than extrapolate. -/
theorem C9_interpolation_window
    (order : ℕ) (horder : order = 9 ∨ order = 11 ∨ order = 17)
    (sv : SV) (t0 τ : ℚ) (hτ : 0 < τ) (M : ℕ) (b : ℕ → Bool) (pos : ℕ → Vector3D)
    (pre post : List (ℚ × SV × Bool × Vector3D))
    (hpre : ∀ x ∈ pre, x.2.1 ≠ sv) (hpost : ∀ x ∈ post, x.2.1 ≠ sv)
    (s : SP3)
    (hitems : s.stablePositionItems
        = pre ++ ((List.range M).map
            (fun j : ℕ => (t0 + (j : ℚ) * τ, sv, b j, pos j)) ++ post))
    (k : ℕ) (hk : k < M) :
    ((order + 1) / 2 ≤ k ∧ k + (order + 1) / 2 ≤ M →
        (s.satellite_position_lagrangian_interpolation sv (t0 + (k : ℚ) * τ) order).isSome = true)
    ∧ (¬ ((order + 1) / 2 ≤ k ∧ k + (order + 1) / 2 ≤ M) →
        s.satellite_position_lagrangian_interpolation sv (t0 + (k : ℚ) * τ) order = none) := by
  have hodd : order % 2 = 1 := by rcases horder with rfl | rfl | rfl <;> rfl
  have h3 : 3 ≤ order := by rcases horder with rfl | rfl | rfl <;> omega
  have hchar := interp_uniform_char order hodd h3 sv t0 τ hτ M b pos
    pre post hpre hpost s hitems k hk
  constructor
  · intro h
    exact hchar.mpr h
  · intro h
    have h2 : ¬ ((s.satellite_position_lagrangian_interpolation sv
        (t0 + (k : ℚ) * τ) order).isSome = true) := fun hs => h (hchar.mp hs)
    exact Option.not_isSome_iff_eq_none.mp h2

/-- C9 witness: the amended window law at a concrete ten-sample store,
order 9 and the sixth sample. -/
theorem C9_interpolation_window_witness :
    (SP3.satellite_position_lagrangian_interpolation
        ⟨⟨.Position, "IGS", "IGS14", 2276, 60176, 900⟩, [],
          (List.range 10).map (fun j : ℕ =>
            (⟨⟨.GPS, 1⟩, (0 : ℚ) + (j : ℚ) * 900⟩,
              SP3Entry.from_position_km ((j : ℚ), 0, 0)))⟩
        ⟨.GPS, 1⟩ ((0 : ℚ) + (5 : ℕ) * 900) 9).isSome = true :=
  (C9_interpolation_window 9 (Or.inl rfl) ⟨.GPS, 1⟩ 0 900 (by norm_num) 10
      (fun _ => false) (fun j => ((j : ℚ), 0, 0)) [] []
      (by simp) (by simp) _ (by with_unfolding_all rfl) 5 (by norm_num)).1
    (by norm_num)

end SP3Spec
